import Mathlib

/-!
# Verification of the ommapin submission/inspection pipeline and retry queue

Shallow embedding of the TypeScript frontend (`src/App.tsx` quick-add form,
`src/state/useBookmarkStore.ts`, `src/features/...`) and, where the Rust
backend is not part of the snapshot, of the behaviour the specification
ascribes to it (marked `Modelled from the spec:`).

Strings are modelled by Lean `String`; the JavaScript primitives used by the
code (`trim`, `toLowerCase`, `startsWith`, `includes`, `split(/\s+/)`) are
given explicit executable definitions over the character list.
-/

namespace Ommapin

/-! ## JavaScript string primitives -/

/-- JS `String.prototype.trim`: strip leading and trailing whitespace. -/
def jsTrim (s : String) : String :=
  ⟨((s.data.dropWhile Char.isWhitespace).reverse.dropWhile Char.isWhitespace).reverse⟩

/-- Prefix test on character lists (JS `startsWith` / regex `^...`). -/
def listStartsWith : List Char → List Char → Bool
  | _, [] => true
  | [], _ :: _ => false
  | c :: cs, d :: ds => c == d && listStartsWith cs ds

/-- JS `value.startsWith(p)` (used to model the regex `^https?:\/\/`). -/
def strStartsWith (s p : String) : Bool :=
  listStartsWith s.data p.data

/-- JS `String.prototype.toLowerCase` (ASCII case folding, as `Char.toLower`). -/
def lowerStr (s : String) : String :=
  ⟨s.data.map Char.toLower⟩

/-- `src/App.tsx` line 843:
`const startsLikeUrl = (value) => /^https?:\/\//.test(value) || value.includes(".")`.
The regex matches exactly the prefixes `http://` and `https://`; `includes(".")`
is containment of the single character `.`. -/
def startsLikeUrl (value : String) : Bool :=
  strStartsWith value "http://" || strStartsWith value "https://"
    || value.data.any (· == '.')

/-- Composite of `tags.split(/\s+/).map(t => t.trim()).filter(Boolean)`
(`getCurrentTags`, `src/App.tsx` lines 912-916) and of
`values.tags.split(/\s+/).filter(Boolean)` (line 1265): splitting on runs of
whitespace and dropping empty pieces yields exactly the maximal non-whitespace
runs, in order (the `trim` of such a piece is the identity). -/
def wordsAux : List Char → List Char → List String
  | [], acc => if acc.isEmpty then [] else [⟨acc.reverse⟩]
  | c :: cs, acc =>
    if c.isWhitespace then
      (if acc.isEmpty then wordsAux cs [] else ⟨acc.reverse⟩ :: wordsAux cs [])
    else wordsAux cs (c :: acc)

/-- `getCurrentTags` (`src/App.tsx` lines 912-916), as a function of the raw
value of the tags field. -/
def getCurrentTags (tagsField : String) : List String :=
  wordsAux tagsField.data []

/-! ## Wire types (`src/lib/tauri.ts`) -/

/-- `src/lib/tauri.ts`: `type SubmitIntent = "create" | "update"`. -/
inductive SubmitIntent
  | create
  | update
  deriving DecidableEq, Repr

/-- `src/lib/tauri.ts`: `interface BookmarkPayload`. -/
structure BookmarkPayload where
  url : String
  title : String
  notes : String
  tags : List String
  private_ : Bool
  readLater : Bool
  intent : SubmitIntent
  deriving DecidableEq, Repr

/-- `src/lib/tauri.ts`: `interface ExistingBookmark`. -/
structure ExistingBookmark where
  url : String
  title : String
  notes : String
  tags : List String
  private_ : Bool
  readLater : Bool
  time : String
  deriving DecidableEq, Repr

/-- `src/lib/tauri.ts`: `interface DuplicateCheckResult`. -/
structure DuplicateCheckResult where
  exists_ : Bool
  bookmark : Option ExistingBookmark
  deriving DecidableEq, Repr

/-- `src/lib/tauri.ts`: `interface TagSuggestions`. -/
structure TagSuggestions where
  popular : List String
  recommended : List String
  deriving DecidableEq, Repr

/-- `src/lib/tauri.ts`: `interface QueueItem` (timestamps as naturals). -/
structure QueueItem where
  id : Nat
  payload : BookmarkPayload
  attemptCount : Nat
  nextAttemptAt : Nat
  lastError : Option String
  deriving DecidableEq, Repr

/-- `src/lib/tauri.ts`: `interface QueueStats`. -/
structure QueueStats where
  pending : Nat
  failed : Nat
  deriving DecidableEq, Repr

/-! ## Queue statistics (`src/state/useBookmarkStore.ts`) -/

/-- `refreshQueue` (`src/state/useBookmarkStore.ts` lines 54-57) derives the
stats from a queue snapshot:
`{ pending: queue.length, failed: queue.filter((i) => i.attemptCount > 0).length }`.
The same count appears as `queuedFailures` in `src/App.tsx` line 1236. -/
def refreshQueueStats (queue : List QueueItem) : QueueStats :=
  { pending := queue.length
  , failed := (queue.filter (fun i => decide (0 < i.attemptCount))).length }

/-! ## Retry queue backend (modelled from the spec, `src-tauri` not in snapshot) -/

/-- Modelled from the spec: the backoff table of the Rust retry worker
(`src-tauri/src/queue/worker.rs`, absent from this snapshot; also stated in
`docs/architecture.md`): attempt 1 → 10s, attempt 2 → 30s, attempt 3 → 2m,
attempt 4 → 10m, attempt 5 and later → 1h cap.  Delays in seconds, indexed by
the new `attemptCount`. -/
def backoffDelaySecs (attemptCount : Nat) : Nat :=
  if attemptCount ≤ 1 then 10
  else if attemptCount = 2 then 30
  else if attemptCount = 3 then 120
  else if attemptCount = 4 then 600
  else 3600

/-- Modelled from the spec: the submit failure path
("constructs a new QueueItem with attemptCount=0, nextAttemptAt = now,
lastError = failure description, calls QueueStore.enqueue") — the Rust
implementation is absent from this snapshot. -/
def enqueueItem (id : Nat) (payload : BookmarkPayload) (now : Nat)
    (err : String) : QueueItem :=
  { id := id, payload := payload, attemptCount := 0, nextAttemptAt := now
  , lastError := some err }

/-- Modelled from the spec: the RetryScheduler failure transition
(`due → in-flight → waiting`): "attemptCount is incremented, nextAttemptAt is
recomputed from the backoff table indexed by the new attemptCount, lastError
is updated"; the delay is measured "from the failed attempt", i.e. from the
attempt time `t`. -/
def retryFailure (item : QueueItem) (t : Nat) (err : String) : QueueItem :=
  { item with
      attemptCount := item.attemptCount + 1
    , nextAttemptAt := t + backoffDelaySecs (item.attemptCount + 1)
    , lastError := some err }

/-- A retry attempt fired exactly when the item becomes due. -/
def retryFailureAtDue (item : QueueItem) (err : String) : QueueItem :=
  retryFailure item item.nextAttemptAt err

/-- The item after `n` consecutive failures, each at its due time. -/
def failSteps (item : QueueItem) (err : String) : Nat → QueueItem
  | 0 => item
  | n + 1 => retryFailureAtDue (failSteps item err n) err

/-- The successive increases of `nextAttemptAt` over `n` consecutive failures. -/
def nextAttemptDeltas (item : QueueItem) (err : String) (n : Nat) : List Nat :=
  (List.range n).map (fun k =>
    (failSteps item err (k + 1)).nextAttemptAt - (failSteps item err k).nextAttemptAt)

/-! ## Quick-add form state (`src/App.tsx`, `QuickAddForm`) -/

/-- The six registered form fields (`useForm` default values, lines 897-907). -/
structure FormFields where
  url : String
  title : String
  notes : String
  tags : String
  private_ : Bool
  readLater : Bool
  deriving DecidableEq, Repr

/-- The visible state touched by the inspection pipeline: the form fields and
intent (component state), `duplicate` / `suggestions` / `statusMessage`
(the zustand store), and the refs/flags used by `inspectUrl`
(`inspectRequestRef`, `inspectLoading`, `lastInspectedUrlRef`,
`tokenConfigured`). -/
structure UiState where
  fields : FormFields
  intent : SubmitIntent
  duplicate : Option DuplicateCheckResult
  suggestions : Option TagSuggestions
  statusMessage : String
  inspectRequest : Nat
  inspectLoading : Bool
  lastInspectedUrl : String
  tokenConfigured : Bool
  deriving DecidableEq, Repr

/-- The outcome of one settled promise in `Promise.allSettled`
(`status === "fulfilled"` with a value, or `status === "rejected"` with a
reason, stringified). -/
inductive Settled (α : Type)
  | fulfilled (value : α)
  | rejected (reason : String)
  deriving DecidableEq, Repr

/-- A remote invocation issued through `src/lib/tauri.ts`. -/
inductive RemoteCall
  | checkDuplicate (url : String)
  | fetchTagSuggestions (url : String)
  | fetchUrlTitle (url : String)
  | submitBookmark (payload : BookmarkPayload)
  deriving DecidableEq, Repr

/-- `applyExistingBookmark` (`src/App.tsx` lines 933-941): pre-fill the six
fields from the existing bookmark (`bookmark.url || fallbackUrl` falls back
when the stored url is the empty string) and switch intent to `update`. -/
def applyExistingBookmark (s : UiState) (bookmark : ExistingBookmark)
    (fallbackUrl : String) : UiState :=
  { s with
      fields :=
        { url := if bookmark.url = "" then fallbackUrl else bookmark.url
        , title := bookmark.title
        , notes := bookmark.notes
        , tags := String.intercalate " " bookmark.tags
        , private_ := bookmark.private_
        , readLater := bookmark.readLater }
    , intent := SubmitIntent.update }

/-- `src/App.tsx` lines 1022-1033: handling of the settled duplicate lookup.
Returns the updated state together with `loadedExistingBookmark`.  A lookup
skipped by the token guard settles as `fulfilled undefined` and is ignored
(`dedupeResult.value` is falsy). -/
def applyDedupe (s : UiState) (url : String)
    (dedupeResult : Settled (Option DuplicateCheckResult)) : UiState × Bool :=
  match dedupeResult with
  | .fulfilled none => (s, false)
  | .fulfilled (some d) =>
    let s1 := { s with duplicate := some d }
    match d.exists_, d.bookmark with
    | true, some bk => (applyExistingBookmark s1 bk url, true)
    | _, _ => ({ s1 with intent := SubmitIntent.create }, false)
  | .rejected reason =>
    ({ s with duplicate := none
            , statusMessage := "Could not check duplicate URL yet: " ++ reason }
    , false)

/-- `src/App.tsx` lines 1035-1040: handling of the settled tag-suggestion
lookup. -/
def applyTags (s : UiState)
    (tagsResult : Settled (Option TagSuggestions)) : UiState :=
  match tagsResult with
  | .fulfilled v => { s with suggestions := v }
  | .rejected reason =>
    { s with suggestions := none
           , statusMessage := "Could not load suggestions yet: " ++ reason }

/-- `src/App.tsx` lines 1042-1047: the fetched remote title pre-fills the title
field only when no existing bookmark was loaded, the fetch fulfilled with a
title that is non-empty after trimming, and the field was empty (after
trimming) when the inspection started. -/
def applyTitle (s : UiState) (titleBeforeInspect : String)
    (loadedExistingBookmark : Bool)
    (titleResult : Settled (Option String)) : UiState :=
  if loadedExistingBookmark then s
  else
    match titleResult with
    | .fulfilled v =>
      let fetchedTitle := jsTrim (v.getD "")
      if fetchedTitle ≠ "" ∧ titleBeforeInspect = "" then
        { s with fields := { s.fields with title := fetchedTitle } }
      else s
    | .rejected _ => s

/-- `inspectUrl`, result-arrival half (`src/App.tsx` lines 1016-1056): the
generation guard `requestId !== inspectRequestRef.current` discards the whole
batch of results; otherwise the three settled results are applied in source
order (duplicate, tags, title) and the loading flag is cleared. -/
def applyInspectResults (s : UiState) (requestId : Nat) (url : String)
    (titleBeforeInspect : String)
    (dedupeResult : Settled (Option DuplicateCheckResult))
    (tagsResult : Settled (Option TagSuggestions))
    (titleResult : Settled (Option String)) : UiState :=
  if requestId ≠ s.inspectRequest then s
  else
    let p := applyDedupe s url dedupeResult
    let s2 := applyTags p.1 tagsResult
    let s3 := applyTitle s2 titleBeforeInspect p.2 titleResult
    { s3 with inspectLoading := false }

/-- The synchronous half of `inspectUrl` either completes in the reset branch
(`done`) or suspends on the remote lookups (`pending`), carrying the captured
generation number, trimmed url, trimmed title-before-inspect and the list of
remote calls actually issued. -/
inductive InspectStep
  | done (s : UiState)
  | pending (s : UiState) (requestId : Nat) (url : String)
      (titleBeforeInspect : String) (calls : List RemoteCall)
  deriving DecidableEq, Repr

/-- `inspectUrl`, synchronous half (`src/App.tsx` lines 979-1014): bump the
generation counter, set the loading flag, trim the url; in the reset branch
(empty or not URL-like) clear duplicate/suggestion state — and the
title/notes/tags fields when the url is empty — and finish (the inner
`requestId === inspectRequestRef.current` guard always holds here because no
`await` separates it from the counter bump); otherwise record the inspected
url, capture the trimmed title and issue the lookups (duplicate and tag
lookups only when a token is configured — otherwise they are replaced by
`Promise.resolve(undefined)` and no remote call is made). -/
def startInspect (s : UiState) (rawUrl : String) : InspectStep :=
  let requestId := s.inspectRequest + 1
  let s0 := { s with inspectRequest := requestId, inspectLoading := true }
  let url := jsTrim rawUrl
  if url = "" ∨ startsLikeUrl url = false then
    let s1 := { s0 with lastInspectedUrl := "" }
    let s2 := { s1 with duplicate := none, suggestions := none }
    let s3 :=
      if url = "" then
        { s2 with fields := { s2.fields with title := "", notes := "", tags := "" } }
      else s2
    .done { s3 with inspectLoading := false }
  else
    let s1 := { s0 with lastInspectedUrl := url }
    .pending s1 requestId url (jsTrim s1.fields.title)
      ((if s.tokenConfigured then
          [RemoteCall.checkDuplicate url, RemoteCall.fetchTagSuggestions url]
        else []) ++ [RemoteCall.fetchUrlTitle url])

/-- The state immediately after the synchronous half of `inspectUrl`. -/
def InspectStep.state : InspectStep → UiState
  | .done s => s
  | .pending s _ _ _ _ => s

/-- The remote calls issued by the synchronous half of `inspectUrl`. -/
def InspectStep.calls : InspectStep → List RemoteCall
  | .done _ => []
  | .pending _ _ _ _ calls => calls

/-- Whether `inspectUrl` completed in its reset branch. -/
def InspectStep.isDone : InspectStep → Bool
  | .done _ => true
  | .pending _ _ _ _ _ => false

/-- Outcomes the remote service would give to the three lookups of one
inspection, were they issued. -/
structure RemoteOutcomes where
  dedupe : Settled (Option DuplicateCheckResult)
  tags : Settled (Option TagSuggestions)
  title : Settled (Option String)
  deriving DecidableEq, Repr

/-- One full `inspectUrl` invocation running to completion with no interleaved
invocation: the synchronous half followed — in the pending case — by the
arrival of the three results.  Lookups suppressed by the token guard settle as
`fulfilled undefined` (`Promise.resolve(undefined)`). -/
def runInspect (s : UiState) (rawUrl : String) (env : RemoteOutcomes) : UiState :=
  match startInspect s rawUrl with
  | .done s' => s'
  | .pending s' requestId url titleBeforeInspect _ =>
    applyInspectResults s' requestId url titleBeforeInspect
      (if s.tokenConfigured then env.dedupe else .fulfilled none)
      (if s.tokenConfigured then env.tags else .fulfilled none)
      env.title

/-! ## Tag merging (`src/App.tsx` lines 1151-1180) -/

/-- JS `Array.from(new Set(list))`: deduplication by raw equality, keeping the
first occurrence, preserving insertion order (generalised over the set of
elements already seen). -/
def dedupFirstAux (seen : List String) : List String → List String
  | [] => []
  | x :: xs =>
    if x ∈ seen then dedupFirstAux seen xs
    else x :: dedupFirstAux (x :: seen) xs

/-- JS `Array.from(new Set(list))`. -/
def dedupFirst (xs : List String) : List String :=
  dedupFirstAux [] xs

/-- The `sourceMap` of `appendTag`: a `Map` filled by
`[...tagArray, tag].forEach((item) => sourceMap.set(item.toLowerCase(), item))`
maps each lowercase key to the LAST item having that key. -/
def lookupLastForm (items : List String) (key : String) : Option String :=
  items.reverse.find? (fun item => lowerStr item == key)

/-- `sourceMap.get(key) || key` of `appendTag`: the `||` falls back to the key
when the map yields `undefined` or the empty string. -/
def renderKey (items : List String) (key : String) : String :=
  match lookupLastForm items key with
  | some v => if v = "" then key else v
  | none => key

/-- `appendTag` (`src/App.tsx` lines 1151-1164) on the token list:
`merged = Array.from(new Set([...tagArray.map(lower), tag.toLowerCase()]))`,
then each key is rendered as `sourceMap.get(key) || key`. -/
def appendTagList (tagArray : List String) (tag : String) : List String :=
  (dedupFirst (tagArray.map lowerStr ++ [lowerStr tag])).map
    (renderKey (tagArray ++ [tag]))

/-- The state-level `appendTag`: reads the tags field, merges, writes back
`merged.map(...).join(" ").trim()`. -/
def appendTag (s : UiState) (tag : String) : UiState :=
  let joined := jsTrim (String.intercalate " " (appendTagList (getCurrentTags s.fields.tags) tag))
  { s with fields := { s.fields with tags := joined } }

/-- The `tagMap` loop of `addAllSuggested` (`src/App.tsx` lines 1171-1178):
`if (!tagMap.has(key)) tagMap.set(key, item)` keeps, for each lowercase key,
the FIRST item having that key, in first-insertion order (generalised over
the keys already present). -/
def fwAux (seen : List String) : List String → List String
  | [] => []
  | x :: xs =>
    if lowerStr x ∈ seen then fwAux seen xs
    else x :: fwAux (lowerStr x :: seen) xs

/-- `addAllSuggested` (`src/App.tsx` lines 1166-1180) on the token list:
first-occurrence case-insensitive deduplication of
`[...existing, ...suggestions.recommended, ...suggestions.popular]`. -/
def addAllList (existing recommended popular : List String) : List String :=
  fwAux [] (existing ++ recommended ++ popular)

/-- The state-level `addAllSuggested`: no-op without suggestions, else merge
into the tags field (joined with single spaces). -/
def addAllSuggested (s : UiState) : UiState :=
  match s.suggestions with
  | none => s
  | some sug =>
    let joined :=
      String.intercalate " "
        (addAllList (getCurrentTags s.fields.tags) sug.recommended sug.popular)
    { s with fields := { s.fields with tags := joined } }

/-! ## Submission path (`src/App.tsx` lines 845-855, 1258-1290) -/

/-- The raw form values validated by the zod resolver (notes is `.optional()`,
hence possibly absent). -/
structure FormValues where
  url : String
  title : String
  notes : Option String
  tags : String
  private_ : Bool
  readLater : Bool
  deriving DecidableEq, Repr

/-- The zod `schema` (`src/App.tsx` lines 845-855):
url non-empty and URL-like after trimming, title non-empty and at most 255,
notes at most 65536 when present; tags and the two booleans are
unconstrained. -/
def validateForm (v : FormValues) : Bool :=
  decide (1 ≤ v.url.length) && startsLikeUrl (jsTrim v.url)
    && decide (1 ≤ v.title.length) && decide (v.title.length ≤ 255)
    && (match v.notes with
        | none => true
        | some n => decide (n.length ≤ 65536))

/-- `onSubmit` payload construction (`src/App.tsx` lines 1261-1269):
`notes: values.notes || ""`, `tags: values.tags.split(/\s+/).filter(Boolean)`.
(`values.notes || ""` maps both `undefined` and `""` to `""`.) -/
def toPayload (intent : SubmitIntent) (v : FormValues) : BookmarkPayload :=
  { url := v.url
  , title := v.title
  , notes := v.notes.getD ""
  , tags := getCurrentTags v.tags
  , private_ := v.private_
  , readLater := v.readLater
  , intent := intent }

/-- What the submit path does with the form values. -/
inductive SubmitAction
  | reportValidationErrors
  | callSubmit (payload : BookmarkPayload)
  deriving DecidableEq, Repr

/-- `handleSubmit(onSubmit)` (`src/App.tsx` line 1403): react-hook-form runs
the zod resolver first; when validation fails it renders the field errors and
never calls `onSubmit`, so `submitBookmark` is not invoked; when it passes,
`onSubmit` builds the payload and calls `submitBookmark`. -/
def handleSubmitModel (intent : SubmitIntent) (v : FormValues) : SubmitAction :=
  if validateForm v then .callSubmit (toPayload intent v)
  else .reportValidationErrors

/-- The remote calls issued by the submit path. -/
def submitActionCalls : SubmitAction → List RemoteCall
  | .reportValidationErrors => []
  | .callSubmit p => [RemoteCall.submitBookmark p]

/-- Modelled from the spec: the backend `submit_bookmark` command
(`src-tauri/src/app/commands.rs`, absent from this snapshot) enqueues a
QueueItem only for a delivery failure of a payload it actually received; a
submission that never reaches it creates nothing. -/
def submitQueueDelta (action : SubmitAction) (deliveryFails : Bool)
    (id now : Nat) (err : String) : List QueueItem :=
  match action with
  | .reportValidationErrors => []
  | .callSubmit p => if deliveryFails then [enqueueItem id p now err] else []

/-! ## Helper lemmas on the inspection pipeline -/

/-- A result batch whose captured generation differs from the current counter
is discarded without touching the state. -/
theorem applyInspectResults_stale (s : UiState) (requestId : Nat)
    (url tb : String) (r1 : Settled (Option DuplicateCheckResult))
    (r2 : Settled (Option TagSuggestions)) (r3 : Settled (Option String))
    (h : requestId ≠ s.inspectRequest) :
    applyInspectResults s requestId url tb r1 r2 r3 = s := by
  unfold applyInspectResults
  rw [if_pos h]

/-- `startInspect` bumps the generation counter by one in both branches. -/
theorem startInspect_state_inspectRequest (s : UiState) (raw : String) :
    (startInspect s raw).state.inspectRequest = s.inspectRequest + 1 := by
  by_cases h2 : jsTrim raw = ""
  · simp [startInspect, h2, InspectStep.state]
  · by_cases h3 : startsLikeUrl (jsTrim raw) = false
    · simp [startInspect, h2, h3, InspectStep.state]
    · simp [startInspect, h2, h3, InspectStep.state]

/-- In the pending case the captured generation equals the counter of the
suspended state, which is the old counter plus one. -/
theorem startInspect_pending_inspectRequest {s : UiState} {raw : String}
    {sA : UiState} {gA : Nat} {urlA tbA : String} {callsA : List RemoteCall}
    (h : startInspect s raw = .pending sA gA urlA tbA callsA) :
    sA.inspectRequest = gA ∧ gA = s.inspectRequest + 1 := by
  by_cases h2 : jsTrim raw = ""
  · simp [startInspect, h2] at h
  · by_cases h3 : startsLikeUrl (jsTrim raw) = false
    · simp [startInspect, h2, h3] at h
    · simp only [startInspect, h2, h3] at h
      rw [if_neg (by simp [h2, h3])] at h
      rw [InspectStep.pending.injEq] at h
      obtain ⟨hS, hg, -, -, -⟩ := h
      subst hS
      exact ⟨hg ▸ rfl, hg.symm⟩

/-- The title rule of `applyTitle`, restricted to the form fields. -/
def titleRuleFields (f : FormFields) (titleBeforeInspect : String)
    (loadedExistingBookmark : Bool)
    (titleResult : Settled (Option String)) : FormFields :=
  if loadedExistingBookmark then f
  else
    match titleResult with
    | .fulfilled v =>
      let fetchedTitle := jsTrim (v.getD "")
      if fetchedTitle ≠ "" ∧ titleBeforeInspect = "" then
        { f with title := fetchedTitle }
      else f
    | .rejected _ => f

/-- Whether a settled duplicate lookup carries a loadable existing bookmark. -/
def loadsExisting : Settled (Option DuplicateCheckResult) → Bool
  | .fulfilled (some d) => d.exists_ && d.bookmark.isSome
  | _ => false

theorem applyTags_fields (s : UiState) (r : Settled (Option TagSuggestions)) :
    (applyTags s r).fields = s.fields := by
  cases r <;> rfl

theorem applyTags_intent (s : UiState) (r : Settled (Option TagSuggestions)) :
    (applyTags s r).intent = s.intent := by
  cases r <;> rfl

theorem applyTags_duplicate (s : UiState) (r : Settled (Option TagSuggestions)) :
    (applyTags s r).duplicate = s.duplicate := by
  cases r <;> rfl

theorem applyTitle_fields (s : UiState) (tb : String) (loaded : Bool)
    (r : Settled (Option String)) :
    (applyTitle s tb loaded r).fields = titleRuleFields s.fields tb loaded r := by
  unfold applyTitle titleRuleFields
  cases loaded
  · cases r
    · simp only [Bool.false_eq_true, if_false]
      split <;> rfl
    · rfl
  · rfl

theorem applyTitle_suggestions (s : UiState) (tb : String) (loaded : Bool)
    (r : Settled (Option String)) :
    (applyTitle s tb loaded r).suggestions = s.suggestions := by
  unfold applyTitle
  cases loaded
  · cases r
    · simp only [Bool.false_eq_true, if_false]
      split <;> rfl
    · rfl
  · rfl

theorem applyTitle_duplicate (s : UiState) (tb : String) (loaded : Bool)
    (r : Settled (Option String)) :
    (applyTitle s tb loaded r).duplicate = s.duplicate := by
  unfold applyTitle
  cases loaded
  · cases r
    · simp only [Bool.false_eq_true, if_false]
      split <;> rfl
    · rfl
  · rfl

theorem applyTitle_intent (s : UiState) (tb : String) (loaded : Bool)
    (r : Settled (Option String)) :
    (applyTitle s tb loaded r).intent = s.intent := by
  unfold applyTitle
  cases loaded
  · cases r
    · simp only [Bool.false_eq_true, if_false]
      split <;> rfl
    · rfl
  · rfl

theorem applyTitle_statusMessage (s : UiState) (tb : String) (loaded : Bool)
    (r : Settled (Option String)) :
    (applyTitle s tb loaded r).statusMessage = s.statusMessage := by
  unfold applyTitle
  cases loaded
  · cases r
    · simp only [Bool.false_eq_true, if_false]
      split <;> rfl
    · rfl
  · rfl

theorem applyDedupe_snd (s : UiState) (url : String)
    (r : Settled (Option DuplicateCheckResult)) :
    (applyDedupe s url r).2 = loadsExisting r := by
  cases r with
  | rejected reason => rfl
  | fulfilled v =>
    cases v with
    | none => rfl
    | some d =>
      cases d with
      | mk ex bk => cases ex <;> cases bk <;> rfl

theorem applyDedupe_fields_of_not_loaded (s : UiState) (url : String)
    (r : Settled (Option DuplicateCheckResult)) (h : loadsExisting r = false) :
    (applyDedupe s url r).1.fields = s.fields := by
  cases r with
  | rejected reason => rfl
  | fulfilled v =>
    cases v with
    | none => rfl
    | some d =>
      cases d with
      | mk ex bk =>
        cases ex <;> cases bk <;> first
          | rfl
          | exact absurd h (by simp [loadsExisting])

/-- Unfolding of `applyInspectResults` at the current generation. -/
theorem applyInspectResults_fresh (s : UiState) (g : Nat) (url tb : String)
    (r1 : Settled (Option DuplicateCheckResult))
    (r2 : Settled (Option TagSuggestions)) (r3 : Settled (Option String))
    (hg : g = s.inspectRequest) :
    applyInspectResults s g url tb r1 r2 r3
      = { applyTitle (applyTags (applyDedupe s url r1).1 r2) tb
            (applyDedupe s url r1).2 r3 with inspectLoading := false } := by
  subst hg
  unfold applyInspectResults
  rw [if_neg (by simp)]

theorem applyInspectResults_fresh_fields (s : UiState) (g : Nat) (url tb : String)
    (r1 : Settled (Option DuplicateCheckResult))
    (r2 : Settled (Option TagSuggestions)) (r3 : Settled (Option String))
    (hg : g = s.inspectRequest) :
    (applyInspectResults s g url tb r1 r2 r3).fields
      = titleRuleFields (applyDedupe s url r1).1.fields tb (loadsExisting r1) r3 := by
  rw [applyInspectResults_fresh s g url tb _ _ _ hg]
  show (applyTitle _ _ _ _).fields = _
  rw [applyTitle_fields, applyTags_fields, applyDedupe_snd]

theorem applyInspectResults_fresh_suggestions (s : UiState) (g : Nat) (url tb : String)
    (r1 : Settled (Option DuplicateCheckResult))
    (r2 : Settled (Option TagSuggestions)) (r3 : Settled (Option String))
    (hg : g = s.inspectRequest) :
    (applyInspectResults s g url tb r1 r2 r3).suggestions
      = match r2 with
        | .fulfilled v => v
        | .rejected _ => none := by
  rw [applyInspectResults_fresh s g url tb _ _ _ hg]
  show (applyTitle _ _ _ _).suggestions = _
  rw [applyTitle_suggestions]
  cases r2 <;> rfl

theorem applyInspectResults_fresh_duplicate (s : UiState) (g : Nat) (url tb : String)
    (r1 : Settled (Option DuplicateCheckResult))
    (r2 : Settled (Option TagSuggestions)) (r3 : Settled (Option String))
    (hg : g = s.inspectRequest) :
    (applyInspectResults s g url tb r1 r2 r3).duplicate
      = (applyDedupe s url r1).1.duplicate := by
  rw [applyInspectResults_fresh s g url tb _ _ _ hg]
  show (applyTitle _ _ _ _).duplicate = _
  rw [applyTitle_duplicate, applyTags_duplicate]

theorem applyInspectResults_fresh_intent (s : UiState) (g : Nat) (url tb : String)
    (r1 : Settled (Option DuplicateCheckResult))
    (r2 : Settled (Option TagSuggestions)) (r3 : Settled (Option String))
    (hg : g = s.inspectRequest) :
    (applyInspectResults s g url tb r1 r2 r3).intent
      = (applyDedupe s url r1).1.intent := by
  rw [applyInspectResults_fresh s g url tb _ _ _ hg]
  show (applyTitle _ _ _ _).intent = _
  rw [applyTitle_intent, applyTags_intent]

theorem applyInspectResults_fresh_statusMessage (s : UiState) (g : Nat) (url tb : String)
    (r1 : Settled (Option DuplicateCheckResult))
    (r2 : Settled (Option TagSuggestions)) (r3 : Settled (Option String))
    (hg : g = s.inspectRequest) :
    (applyInspectResults s g url tb r1 r2 r3).statusMessage
      = match r2 with
        | .fulfilled _ => (applyDedupe s url r1).1.statusMessage
        | .rejected reason => "Could not load suggestions yet: " ++ reason := by
  rw [applyInspectResults_fresh s g url tb _ _ _ hg]
  show (applyTitle _ _ _ _).statusMessage = _
  rw [applyTitle_statusMessage]
  cases r2 <;> rfl

/-! ## C1 — staleness guard -/

/-- C1: a result whose captured generation differs from the current counter is
discarded silently (the state is returned unchanged); every `inspectUrl`
invocation advances the generation counter by exactly one; hence if a second
inspection starts after a first one suspended on its lookups, the first
invocation's results arrive stale and never mutate the visible
duplicate/suggestion/title state — only the latest inspection's results can. -/
theorem claim1_inspect_staleness :
    (∀ (s : UiState) (requestId : Nat) (url tb : String)
        (r1 : Settled (Option DuplicateCheckResult))
        (r2 : Settled (Option TagSuggestions)) (r3 : Settled (Option String)),
      requestId ≠ s.inspectRequest →
        applyInspectResults s requestId url tb r1 r2 r3 = s)
    ∧ (∀ (s : UiState) (raw : String),
        (startInspect s raw).state.inspectRequest = s.inspectRequest + 1)
    ∧ (∀ (s : UiState) (rawA rawB : String) (sA : UiState) (gA : Nat)
        (urlA tbA : String) (callsA : List RemoteCall)
        (r1 : Settled (Option DuplicateCheckResult))
        (r2 : Settled (Option TagSuggestions)) (r3 : Settled (Option String)),
      startInspect s rawA = .pending sA gA urlA tbA callsA →
        applyInspectResults (startInspect sA rawB).state gA urlA tbA r1 r2 r3
          = (startInspect sA rawB).state) := by
  refine ⟨applyInspectResults_stale, startInspect_state_inspectRequest, ?_⟩
  intro s rawA rawB sA gA urlA tbA callsA r1 r2 r3 h
  obtain ⟨h1, -⟩ := startInspect_pending_inspectRequest h
  apply applyInspectResults_stale
  rw [startInspect_state_inspectRequest, h1]
  omega

/-- A sample quiescent form state. -/
def sampleState : UiState :=
  { fields := { url := "", title := "", notes := "", tags := ""
              , private_ := false, readLater := false }
  , intent := SubmitIntent.create
  , duplicate := none
  , suggestions := none
  , statusMessage := ""
  , inspectRequest := 0
  , inspectLoading := false
  , lastInspectedUrl := ""
  , tokenConfigured := true }

/-- Witness for C1: inspecting `a.com` and then `b.com` from the sample state;
the results of the `a.com` inspection leave the post-`b.com` state untouched. -/
theorem claim1_inspect_staleness_witness :
    applyInspectResults (startInspect (startInspect sampleState "a.com").state "b.com").state
        1 "a.com" "" (Settled.fulfilled none) (Settled.fulfilled none)
        (Settled.fulfilled (some "Stale Title"))
      = (startInspect (startInspect sampleState "a.com").state "b.com").state := by
  have h : startInspect sampleState "a.com"
      = InspectStep.pending (startInspect sampleState "a.com").state 1 "a.com" ""
          [RemoteCall.checkDuplicate "a.com", RemoteCall.fetchTagSuggestions "a.com",
           RemoteCall.fetchUrlTitle "a.com"] := by decide
  exact claim1_inspect_staleness.2.2 sampleState "a.com" "b.com"
    (startInspect sampleState "a.com").state 1 "a.com" ""
    [RemoteCall.checkDuplicate "a.com", RemoteCall.fetchTagSuggestions "a.com",
     RemoteCall.fetchUrlTitle "a.com"]
    (Settled.fulfilled none) (Settled.fulfilled none)
    (Settled.fulfilled (some "Stale Title")) h

/-! ## C2 — backoff schedule (modelled from the spec) -/

/-- C2: each failed delivery attempt sets `nextAttemptAt` to the attempt time
plus the fixed backoff table indexed by the new `attemptCount`
(1 → 10s, 2 → 30s, 3 → 2m, 4 → 10m, 5 and later → 1h), and an item failing six
consecutive times (each retry firing at its due time) sees `nextAttemptAt`
increase by exactly [10s, 30s, 2m, 10m, 1h, 1h]. -/
theorem claim2_backoff_schedule :
    (∀ (item : QueueItem) (t : Nat) (err : String),
      (retryFailure item t err).attemptCount = item.attemptCount + 1
      ∧ (retryFailure item t err).nextAttemptAt
          = t + backoffDelaySecs (item.attemptCount + 1))
    ∧ backoffDelaySecs 1 = 10 ∧ backoffDelaySecs 2 = 30
    ∧ backoffDelaySecs 3 = 120 ∧ backoffDelaySecs 4 = 600
    ∧ (∀ n : Nat, 5 ≤ n → backoffDelaySecs n = 3600)
    ∧ (∀ (id : Nat) (p : BookmarkPayload) (now : Nat) (err : String),
        nextAttemptDeltas (enqueueItem id p now err) err 6
          = [10, 30, 120, 600, 3600, 3600]) := by
  refine ⟨fun item t err => ⟨rfl, rfl⟩, rfl, rfl, rfl, rfl, ?_, ?_⟩
  · intro n hn
    unfold backoffDelaySecs
    rw [if_neg (by omega), if_neg (by omega), if_neg (by omega), if_neg (by omega)]
  · intro id p now err
    have hrange : List.range 6 = [0, 1, 2, 3, 4, 5] := by decide
    simp only [nextAttemptDeltas, hrange, List.map_cons, List.map_nil]
    simp only [failSteps, retryFailureAtDue, retryFailure, enqueueItem,
      backoffDelaySecs]
    norm_num

/-- A sample payload for concrete witnesses. -/
def samplePayload : BookmarkPayload :=
  { url := "https://example.com", title := "Example", notes := "", tags := []
  , private_ := false, readLater := false, intent := SubmitIntent.create }

/-- Witness for C2 at attempt number 7 and a concrete enqueued item. -/
theorem claim2_backoff_schedule_witness :
    backoffDelaySecs 7 = 3600
    ∧ nextAttemptDeltas (enqueueItem 1 samplePayload 0 "offline") "offline" 6
        = [10, 30, 120, 600, 3600, 3600] :=
  ⟨claim2_backoff_schedule.2.2.2.2.2.1 7 (by omega),
   claim2_backoff_schedule.2.2.2.2.2.2 1 samplePayload 0 "offline"⟩

/-! ## C3 — queue statistics -/

/-- C3 counterexample: a snapshot holding one freshly enqueued item (the
submit failure path creates it with `attemptCount = 0`) has `failed = 0` but
`pending = 1`, so `failed` does not equal `pending`. -/
theorem claim3_failed_equals_pending_cex :
    (refreshQueueStats [enqueueItem 1 samplePayload 0 "network unreachable"]).failed
      ≠ (refreshQueueStats [enqueueItem 1 samplePayload 0 "network unreachable"]).pending := by
  decide

/-- C3 (amended): for every queue snapshot the derived stats satisfy
`pending` = count of all items and `failed` = count of items with
`attemptCount > 0`; consequently `failed ≤ pending`, with equality exactly
when every item in the snapshot has been attempted at least once — not in
general, because items are enqueued with `attemptCount = 0`. -/
theorem claim3_queue_stats (queue : List QueueItem) :
    (refreshQueueStats queue).pending = queue.length
    ∧ (refreshQueueStats queue).failed
        = (queue.filter (fun i => decide (0 < i.attemptCount))).length
    ∧ (refreshQueueStats queue).failed ≤ (refreshQueueStats queue).pending
    ∧ ((refreshQueueStats queue).failed = (refreshQueueStats queue).pending
        ↔ ∀ i ∈ queue, 0 < i.attemptCount) := by
  refine ⟨rfl, rfl, List.length_filter_le _ _, ?_, ?_⟩
  · intro h
    have hsub : queue.filter (fun i => decide (0 < i.attemptCount)) = queue :=
      (List.filter_sublist queue).eq_of_length h
    intro i hi
    simpa using List.filter_eq_self.mp hsub i hi
  · intro h
    have heq : queue.filter (fun i => decide (0 < i.attemptCount)) = queue :=
      List.filter_eq_self.mpr (fun a ha => by simpa using h a ha)
    simp [refreshQueueStats, heq]

/-- Witness for C3 on a two-item snapshot (one fresh, one retried). -/
theorem claim3_queue_stats_witness :
    (refreshQueueStats [enqueueItem 1 samplePayload 0 "offline",
        retryFailure (enqueueItem 2 samplePayload 0 "offline") 0 "offline"]).failed
      ≤ (refreshQueueStats [enqueueItem 1 samplePayload 0 "offline",
        retryFailure (enqueueItem 2 samplePayload 0 "offline") 0 "offline"]).pending :=
  (claim3_queue_stats _).2.2.1

/-! ## C4 — validation happens before any network call -/

/-- C4: a payload failing shape validation (empty url, url not URL-like after
trimming, empty title, title over 255 characters, or notes over 65536
characters) makes `handleSubmit` report the validation errors: `onSubmit` is
never invoked, no `submitBookmark` network call is made, and no QueueItem can
be created for it (the backend only enqueues payloads it received). -/
theorem claim4_validation_guard (intent : SubmitIntent) (v : FormValues)
    (h : v.url = "" ∨ startsLikeUrl (jsTrim v.url) = false ∨ v.title = ""
        ∨ 255 < v.title.length ∨ ∃ n, v.notes = some n ∧ 65536 < n.length) :
    handleSubmitModel intent v = SubmitAction.reportValidationErrors
    ∧ submitActionCalls (handleSubmitModel intent v) = []
    ∧ ∀ (deliveryFails : Bool) (id now : Nat) (err : String),
        submitQueueDelta (handleSubmitModel intent v) deliveryFails id now err
          = [] := by
  have hv : validateForm v = false := by
    unfold validateForm
    rcases h with h | h | h | h | ⟨n, hn, hlen⟩
    · simp [h]
    · simp [h]
    · simp [h]
    · simp [Nat.not_le.mpr h]
    · simp [hn, Nat.not_le.mpr hlen]
  simp [handleSubmitModel, hv, submitActionCalls, submitQueueDelta]

/-- Witness for C4: the empty-url payload is rejected before any effect. -/
theorem claim4_validation_guard_witness :
    handleSubmitModel SubmitIntent.create
        ⟨"", "Example", none, "", false, false⟩
      = SubmitAction.reportValidationErrors
    ∧ submitActionCalls (handleSubmitModel SubmitIntent.create
        ⟨"", "Example", none, "", false, false⟩) = []
    ∧ ∀ (deliveryFails : Bool) (id now : Nat) (err : String),
        submitQueueDelta (handleSubmitModel SubmitIntent.create
          ⟨"", "Example", none, "", false, false⟩) deliveryFails id now err = [] :=
  claim4_validation_guard SubmitIntent.create
    ⟨"", "Example", none, "", false, false⟩ (Or.inl rfl)

/-! ## C7 — the reset branch of `inspectUrl` -/

/-- C7: when the input, after trimming, is empty or fails the permissive
URL-likeness test, `inspectUrl` completes synchronously in its reset branch:
it clears the duplicate and suggestion state, issues no remote call, and
leaves the status message untouched (a reset, not an error). -/
theorem claim7_reset_branch (s : UiState) (rawUrl : String)
    (h : jsTrim rawUrl = "" ∨ startsLikeUrl (jsTrim rawUrl) = false) :
    (startInspect s rawUrl).isDone = true
    ∧ (startInspect s rawUrl).calls = []
    ∧ (startInspect s rawUrl).state.duplicate = none
    ∧ (startInspect s rawUrl).state.suggestions = none
    ∧ (startInspect s rawUrl).state.statusMessage = s.statusMessage := by
  by_cases h2 : jsTrim rawUrl = ""
  · simp [startInspect, h2, InspectStep.isDone, InspectStep.calls,
      InspectStep.state]
  · rcases h with h0 | h0
    · exact absurd h0 h2
    · simp [startInspect, h0, h2, InspectStep.isDone, InspectStep.calls,
        InspectStep.state]

/-- Witness for C7: the word `bookmarks` (no scheme, no dot) resets silently. -/
theorem claim7_reset_branch_witness :
    (startInspect sampleState "bookmarks").isDone = true
    ∧ (startInspect sampleState "bookmarks").calls = []
    ∧ (startInspect sampleState "bookmarks").state.duplicate = none
    ∧ (startInspect sampleState "bookmarks").state.suggestions = none
    ∧ (startInspect sampleState "bookmarks").state.statusMessage
        = sampleState.statusMessage :=
  claim7_reset_branch sampleState "bookmarks" (Or.inr (by decide))

/-! ## Further helper lemmas for C5, C6, C8, C10 -/

theorem applyTitle_rejected_eq (s : UiState) (tb : String) (loaded : Bool)
    (m : String) : applyTitle s tb loaded (.rejected m) = s := by
  unfold applyTitle
  cases loaded <;> rfl

theorem applyTitle_fulfilled_none_eq (s : UiState) (tb : String) (loaded : Bool) :
    applyTitle s tb loaded (.fulfilled none) = s := by
  unfold applyTitle
  cases loaded
  · simp [jsTrim]
  · rfl

theorem applyDedupe_some_duplicate (s : UiState) (url : String)
    (d : DuplicateCheckResult) :
    (applyDedupe s url (.fulfilled (some d))).1.duplicate = some d := by
  cases d with
  | mk ex bk =>
    cases ex <;> cases bk <;> rfl

/-- The suspended state after the synchronous half of a non-reset inspection. -/
def pendingState (s : UiState) (raw : String) : UiState :=
  { s with inspectRequest := s.inspectRequest + 1, inspectLoading := true
         , lastInspectedUrl := jsTrim raw }

/-- The settled value the duplicate lookup yields (the token guard replaces it
by `Promise.resolve(undefined)` when no token is configured). -/
def effectiveDedupe (s : UiState) (env : RemoteOutcomes) :
    Settled (Option DuplicateCheckResult) :=
  if s.tokenConfigured then env.dedupe else .fulfilled none

/-- The settled value the tag-suggestion lookup yields (token guard as above). -/
def effectiveTags (s : UiState) (env : RemoteOutcomes) :
    Settled (Option TagSuggestions) :=
  if s.tokenConfigured then env.tags else .fulfilled none

/-- In the non-reset case `runInspect` is `applyInspectResults` at the fresh
generation over the suspended state. -/
theorem runInspect_pending (s : UiState) (raw : String) (env : RemoteOutcomes)
    (h2 : jsTrim raw ≠ "") (h3 : startsLikeUrl (jsTrim raw) = true) :
    runInspect s raw env
      = applyInspectResults (pendingState s raw) (s.inspectRequest + 1)
          (jsTrim raw) (jsTrim s.fields.title)
          (effectiveDedupe s env) (effectiveTags s env) env.title := by
  unfold runInspect startInspect pendingState effectiveDedupe effectiveTags
  rw [if_neg (by simp [h2, h3])]

theorem pendingState_inspectRequest (s : UiState) (raw : String) :
    s.inspectRequest + 1 = (pendingState s raw).inspectRequest := rfl

/-! ## C5 — independent lookups, per-call error isolation -/

/-- C5 counterexample: when only the title fetch fails, the inspection applies
the other results and changes nothing else — in particular NO status message is
surfaced for the failed title lookup (the whole outcome is the fresh state with
the loading flag cleared, status message still empty), contradicting the claim
that every failed lookup surfaces a non-fatal status message. -/
theorem claim5_title_failure_silent_cex :
    applyInspectResults sampleState 0 "https://a.com" ""
        (Settled.fulfilled none) (Settled.fulfilled none)
        (Settled.rejected "network timeout")
      = { sampleState with inspectLoading := false }
    ∧ (applyInspectResults sampleState 0 "https://a.com" ""
        (Settled.fulfilled none) (Settled.fulfilled none)
        (Settled.rejected "network timeout")).statusMessage = "" := by
  constructor <;> rfl

/-- C5 (amended): the three lookups settle independently and a failure of one
never blocks or discards another's result.  A failed tag lookup unsets only the
suggestions and writes its status message; a failed duplicate lookup unsets
only the duplicate state and writes its status message (overwritten, not
aggregated, when the tag lookup also fails); a failed title fetch is ignored
silently — it changes nothing, not even the status message.  Fulfilled results
are applied regardless of the other lookups' failures. -/
theorem claim5_lookup_isolation :
    (∀ (s : UiState) (g : Nat) (url tb : String)
        (r1 : Settled (Option DuplicateCheckResult))
        (r3 : Settled (Option String)) (reason : String),
      g = s.inspectRequest →
        (applyInspectResults s g url tb r1 (.rejected reason) r3).suggestions = none
        ∧ (applyInspectResults s g url tb r1 (.rejected reason) r3).statusMessage
            = "Could not load suggestions yet: " ++ reason
        ∧ (applyInspectResults s g url tb r1 (.rejected reason) r3).fields
            = (applyInspectResults s g url tb r1 (.fulfilled none) r3).fields
        ∧ (applyInspectResults s g url tb r1 (.rejected reason) r3).intent
            = (applyInspectResults s g url tb r1 (.fulfilled none) r3).intent
        ∧ (applyInspectResults s g url tb r1 (.rejected reason) r3).duplicate
            = (applyInspectResults s g url tb r1 (.fulfilled none) r3).duplicate)
    ∧ (∀ (s : UiState) (g : Nat) (url tb : String)
        (r2 : Settled (Option TagSuggestions)) (r3 : Settled (Option String))
        (reason : String),
      g = s.inspectRequest →
        (applyInspectResults s g url tb (.rejected reason) r2 r3).duplicate = none
        ∧ (applyInspectResults s g url tb (.rejected reason) r2 r3).fields
            = (applyInspectResults s g url tb (.fulfilled none) r2 r3).fields
        ∧ (applyInspectResults s g url tb (.rejected reason) r2 r3).intent
            = (applyInspectResults s g url tb (.fulfilled none) r2 r3).intent
        ∧ (applyInspectResults s g url tb (.rejected reason) r2 r3).suggestions
            = (applyInspectResults s g url tb (.fulfilled none) r2 r3).suggestions)
    ∧ (∀ (s : UiState) (g : Nat) (url tb : String) (v : Option TagSuggestions)
        (r3 : Settled (Option String)) (reason : String),
      g = s.inspectRequest →
        (applyInspectResults s g url tb (.rejected reason) (.fulfilled v) r3).statusMessage
          = "Could not check duplicate URL yet: " ++ reason)
    ∧ (∀ (s : UiState) (g : Nat) (url tb : String)
        (r1 : Settled (Option DuplicateCheckResult))
        (r2 : Settled (Option TagSuggestions)) (reason : String),
      g = s.inspectRequest →
        applyInspectResults s g url tb r1 r2 (.rejected reason)
          = applyInspectResults s g url tb r1 r2 (.fulfilled none))
    ∧ (∀ (s : UiState) (g : Nat) (url tb : String)
        (r1 : Settled (Option DuplicateCheckResult)) (v : Option TagSuggestions)
        (r3 : Settled (Option String)),
      g = s.inspectRequest →
        (applyInspectResults s g url tb r1 (.fulfilled v) r3).suggestions = v)
    ∧ (∀ (s : UiState) (g : Nat) (url tb : String) (d : DuplicateCheckResult)
        (r2 : Settled (Option TagSuggestions)) (r3 : Settled (Option String)),
      g = s.inspectRequest →
        (applyInspectResults s g url tb (.fulfilled (some d)) r2 r3).duplicate
          = some d) := by
  refine ⟨?_, ?_, ?_, ?_, ?_, ?_⟩
  · intro s g url tb r1 r3 reason hg
    refine ⟨?_, ?_, ?_, ?_, ?_⟩
    · rw [applyInspectResults_fresh_suggestions s g url tb _ _ _ hg]
    · rw [applyInspectResults_fresh_statusMessage s g url tb _ _ _ hg]
    · rw [applyInspectResults_fresh_fields s g url tb _ _ _ hg,
        applyInspectResults_fresh_fields s g url tb _ _ _ hg]
    · rw [applyInspectResults_fresh_intent s g url tb _ _ _ hg,
        applyInspectResults_fresh_intent s g url tb _ _ _ hg]
    · rw [applyInspectResults_fresh_duplicate s g url tb _ _ _ hg,
        applyInspectResults_fresh_duplicate s g url tb _ _ _ hg]
  · intro s g url tb r2 r3 reason hg
    refine ⟨?_, ?_, ?_, ?_⟩
    · rw [applyInspectResults_fresh_duplicate s g url tb _ _ _ hg]
      rfl
    · rw [applyInspectResults_fresh_fields s g url tb _ _ _ hg,
        applyInspectResults_fresh_fields s g url tb _ _ _ hg]
      rfl
    · rw [applyInspectResults_fresh_intent s g url tb _ _ _ hg,
        applyInspectResults_fresh_intent s g url tb _ _ _ hg]
      rfl
    · rw [applyInspectResults_fresh_suggestions s g url tb _ _ _ hg,
        applyInspectResults_fresh_suggestions s g url tb _ _ _ hg]
  · intro s g url tb v r3 reason hg
    rw [applyInspectResults_fresh_statusMessage s g url tb _ _ _ hg]
    rfl
  · intro s g url tb r1 r2 reason hg
    rw [applyInspectResults_fresh s g url tb _ _ _ hg,
      applyInspectResults_fresh s g url tb _ _ _ hg,
      applyTitle_rejected_eq, applyTitle_fulfilled_none_eq]
  · intro s g url tb r1 v r3 hg
    rw [applyInspectResults_fresh_suggestions s g url tb _ _ _ hg]
  · intro s g url tb d r2 r3 hg
    rw [applyInspectResults_fresh_duplicate s g url tb _ _ _ hg,
      applyDedupe_some_duplicate]

/-- Witness for C5: a failed tag lookup at a concrete state clears suggestions,
writes its message, and leaves fields/intent/duplicate as a successful-but-empty
lookup would. -/
theorem claim5_lookup_isolation_witness :
    (applyInspectResults sampleState 0 "https://a.com" ""
        (Settled.fulfilled none) (Settled.rejected "HTTP 500")
        (Settled.fulfilled none)).suggestions = none
    ∧ (applyInspectResults sampleState 0 "https://a.com" ""
        (Settled.fulfilled none) (Settled.rejected "HTTP 500")
        (Settled.fulfilled none)).statusMessage
        = "Could not load suggestions yet: " ++ "HTTP 500"
    ∧ (applyInspectResults sampleState 0 "https://a.com" ""
        (Settled.fulfilled none) (Settled.rejected "HTTP 500")
        (Settled.fulfilled none)).fields
        = (applyInspectResults sampleState 0 "https://a.com" ""
            (Settled.fulfilled none) (Settled.fulfilled none)
            (Settled.fulfilled none)).fields
    ∧ (applyInspectResults sampleState 0 "https://a.com" ""
        (Settled.fulfilled none) (Settled.rejected "HTTP 500")
        (Settled.fulfilled none)).intent
        = (applyInspectResults sampleState 0 "https://a.com" ""
            (Settled.fulfilled none) (Settled.fulfilled none)
            (Settled.fulfilled none)).intent
    ∧ (applyInspectResults sampleState 0 "https://a.com" ""
        (Settled.fulfilled none) (Settled.rejected "HTTP 500")
        (Settled.fulfilled none)).duplicate
        = (applyInspectResults sampleState 0 "https://a.com" ""
            (Settled.fulfilled none) (Settled.fulfilled none)
            (Settled.fulfilled none)).duplicate :=
  claim5_lookup_isolation.1 sampleState 0 "https://a.com" ""
    (Settled.fulfilled none) (Settled.fulfilled none) "HTTP 500" rfl

/-! ## C6 — duplicate pre-fill -/

/-- An existing bookmark whose stored url is empty. -/
def cexBookmark : ExistingBookmark :=
  { url := "", title := "Old title", notes := "old notes", tags := ["old"]
  , private_ := true, readLater := false, time := "2024-01-01" }

/-- C6 counterexample: when the duplicate lookup reports an existing bookmark
whose stored `url` is the empty string, the url field is pre-filled with the
inspected url (`bookmark.url || url` falls back), NOT with the bookmark's url —
so the pre-fill does not exactly match the returned `ExistingBookmark`. -/
theorem claim6_url_fallback_cex :
    cexBookmark.url = ""
    ∧ (applyInspectResults sampleState 0 "https://a.com" ""
        (Settled.fulfilled (some ⟨true, some cexBookmark⟩))
        (Settled.fulfilled none) (Settled.fulfilled none)).fields.url
        = "https://a.com"
    ∧ (applyInspectResults sampleState 0 "https://a.com" ""
        (Settled.fulfilled (some ⟨true, some cexBookmark⟩))
        (Settled.fulfilled none) (Settled.fulfilled none)).fields.url
        ≠ cexBookmark.url := by
  refine ⟨rfl, rfl, ?_⟩
  decide

/-- C6 (amended): when the duplicate lookup reports an existing bookmark, the
title/notes/tags/private/readLater fields are pre-filled to exactly match the
returned `ExistingBookmark` (tags joined with single spaces for display), the
url field matches it unless the stored url is empty — in which case the
inspected url is kept as a fallback — and the submission intent switches to
`update`; when the lookup reports no existing bookmark (`exists` false, or no
bookmark record attached), intent defaults to `create`. -/
theorem claim6_duplicate_prefill :
    (∀ (s : UiState) (g : Nat) (url tb : String) (bk : ExistingBookmark)
        (r2 : Settled (Option TagSuggestions)) (r3 : Settled (Option String)),
      g = s.inspectRequest →
        (applyInspectResults s g url tb (.fulfilled (some ⟨true, some bk⟩)) r2 r3).fields.title
            = bk.title
        ∧ (applyInspectResults s g url tb (.fulfilled (some ⟨true, some bk⟩)) r2 r3).fields.notes
            = bk.notes
        ∧ (applyInspectResults s g url tb (.fulfilled (some ⟨true, some bk⟩)) r2 r3).fields.tags
            = String.intercalate " " bk.tags
        ∧ (applyInspectResults s g url tb (.fulfilled (some ⟨true, some bk⟩)) r2 r3).fields.private_
            = bk.private_
        ∧ (applyInspectResults s g url tb (.fulfilled (some ⟨true, some bk⟩)) r2 r3).fields.readLater
            = bk.readLater
        ∧ (applyInspectResults s g url tb (.fulfilled (some ⟨true, some bk⟩)) r2 r3).fields.url
            = (if bk.url = "" then url else bk.url)
        ∧ (applyInspectResults s g url tb (.fulfilled (some ⟨true, some bk⟩)) r2 r3).intent
            = SubmitIntent.update
        ∧ (applyInspectResults s g url tb (.fulfilled (some ⟨true, some bk⟩)) r2 r3).duplicate
            = some ⟨true, some bk⟩)
    ∧ (∀ (s : UiState) (g : Nat) (url tb : String) (d : DuplicateCheckResult)
        (r2 : Settled (Option TagSuggestions)) (r3 : Settled (Option String)),
      g = s.inspectRequest →
        d.exists_ = false ∨ d.bookmark = none →
        (applyInspectResults s g url tb (.fulfilled (some d)) r2 r3).intent
          = SubmitIntent.create) := by
  constructor
  · intro s g url tb bk r2 r3 hg
    have hfields :
        (applyInspectResults s g url tb (.fulfilled (some ⟨true, some bk⟩)) r2 r3).fields
          = (applyExistingBookmark { s with duplicate := some ⟨true, some bk⟩ } bk url).fields := by
      rw [applyInspectResults_fresh_fields s g url tb _ _ _ hg]
      rfl
    refine ⟨?_, ?_, ?_, ?_, ?_, ?_, ?_, ?_⟩
    · rw [hfields]; rfl
    · rw [hfields]; rfl
    · rw [hfields]; rfl
    · rw [hfields]; rfl
    · rw [hfields]; rfl
    · rw [hfields]
      show (if bk.url = "" then url else bk.url) = _
      rfl
    · rw [applyInspectResults_fresh_intent s g url tb _ _ _ hg]
      rfl
    · rw [applyInspectResults_fresh_duplicate s g url tb _ _ _ hg,
        applyDedupe_some_duplicate]
  · intro s g url tb d r2 r3 hg hno
    rw [applyInspectResults_fresh_intent s g url tb _ _ _ hg]
    cases d with
    | mk ex bk =>
      rcases hno with hno | hno
      · cases hno
        cases bk <;> rfl
      · cases hno
        cases ex <;> rfl

/-- Witness for C6 at a concrete existing bookmark with a non-empty url. -/
theorem claim6_duplicate_prefill_witness :
    (applyInspectResults sampleState 0 "https://a.com" ""
        (Settled.fulfilled (some ⟨true, some
          ⟨"https://b.com", "B", "n", ["x", "y"], false, true, "t"⟩⟩))
        (Settled.fulfilled none) (Settled.fulfilled none)).fields.title = "B"
    ∧ (applyInspectResults sampleState 0 "https://a.com" ""
        (Settled.fulfilled (some ⟨true, some
          ⟨"https://b.com", "B", "n", ["x", "y"], false, true, "t"⟩⟩))
        (Settled.fulfilled none) (Settled.fulfilled none)).fields.notes = "n"
    ∧ (applyInspectResults sampleState 0 "https://a.com" ""
        (Settled.fulfilled (some ⟨true, some
          ⟨"https://b.com", "B", "n", ["x", "y"], false, true, "t"⟩⟩))
        (Settled.fulfilled none) (Settled.fulfilled none)).fields.tags
        = String.intercalate " " ["x", "y"]
    ∧ (applyInspectResults sampleState 0 "https://a.com" ""
        (Settled.fulfilled (some ⟨true, some
          ⟨"https://b.com", "B", "n", ["x", "y"], false, true, "t"⟩⟩))
        (Settled.fulfilled none) (Settled.fulfilled none)).fields.private_ = false
    ∧ (applyInspectResults sampleState 0 "https://a.com" ""
        (Settled.fulfilled (some ⟨true, some
          ⟨"https://b.com", "B", "n", ["x", "y"], false, true, "t"⟩⟩))
        (Settled.fulfilled none) (Settled.fulfilled none)).fields.readLater = true
    ∧ (applyInspectResults sampleState 0 "https://a.com" ""
        (Settled.fulfilled (some ⟨true, some
          ⟨"https://b.com", "B", "n", ["x", "y"], false, true, "t"⟩⟩))
        (Settled.fulfilled none) (Settled.fulfilled none)).fields.url
        = (if ("https://b.com" : String) = "" then "https://a.com" else "https://b.com")
    ∧ (applyInspectResults sampleState 0 "https://a.com" ""
        (Settled.fulfilled (some ⟨true, some
          ⟨"https://b.com", "B", "n", ["x", "y"], false, true, "t"⟩⟩))
        (Settled.fulfilled none) (Settled.fulfilled none)).intent
        = SubmitIntent.update
    ∧ (applyInspectResults sampleState 0 "https://a.com" ""
        (Settled.fulfilled (some ⟨true, some
          ⟨"https://b.com", "B", "n", ["x", "y"], false, true, "t"⟩⟩))
        (Settled.fulfilled none) (Settled.fulfilled none)).duplicate
        = some ⟨true, some ⟨"https://b.com", "B", "n", ["x", "y"], false, true, "t"⟩⟩ :=
  claim6_duplicate_prefill.1 sampleState 0 "https://a.com" ""
    ⟨"https://b.com", "B", "n", ["x", "y"], false, true, "t"⟩
    (Settled.fulfilled none) (Settled.fulfilled none) rfl

/-! ## C8 — the fetched title never overwrites a typed title -/

/-- A state whose title field holds a single space. -/
def cexState8 : UiState :=
  { sampleState with fields := { sampleState.fields with title := " " } }

/-- Outcomes where only the title fetch yields something. -/
def envTitleOnly : RemoteOutcomes :=
  { dedupe := Settled.fulfilled none
  , tags := Settled.fulfilled none
  , title := Settled.fulfilled (some "Fetched Title") }

/-- C8 counterexample: a title field holding `" "` is a non-empty string when
the inspection starts, yet the code captures it TRIMMED, treats it as empty,
and overwrites it with the fetched remote title. -/
theorem claim8_blank_title_overwritten_cex :
    cexState8.fields.title = " "
    ∧ cexState8.fields.title ≠ ""
    ∧ (runInspect cexState8 "a.com" envTitleOnly).fields.title = "Fetched Title"
    ∧ (runInspect cexState8 "a.com" envTitleOnly).fields.title
        ≠ cexState8.fields.title := by
  refine ⟨rfl, by decide, by decide, by decide⟩

/-- C8 (amended): during an inspection that issues its lookups and loads no
duplicate bookmark, the title field is left unchanged by the title-fetch
result whenever it was non-BLANK (non-empty after trimming — the code captures
`getValues("title").trim()`) at inspection start; only when it was blank at
inspection start is a fetched title that is non-empty after trimming written
into it (in trimmed form).  A blank-trimming fetch or a failed fetch writes
nothing. -/
theorem claim8_title_preservation (s : UiState) (raw : String)
    (env : RemoteOutcomes)
    (h2 : jsTrim raw ≠ "") (h3 : startsLikeUrl (jsTrim raw) = true)
    (hnl : loadsExisting (effectiveDedupe s env) = false) :
    (jsTrim s.fields.title ≠ "" →
        (runInspect s raw env).fields.title = s.fields.title)
    ∧ (∀ t : Option String, env.title = .fulfilled t →
        jsTrim (t.getD "") ≠ "" → jsTrim s.fields.title = "" →
        (runInspect s raw env).fields.title = jsTrim (t.getD ""))
    ∧ (∀ t : Option String, env.title = .fulfilled t → jsTrim (t.getD "") = "" →
        (runInspect s raw env).fields.title = s.fields.title)
    ∧ (∀ m : String, env.title = .rejected m →
        (runInspect s raw env).fields.title = s.fields.title) := by
  have hfields : (runInspect s raw env).fields
      = titleRuleFields s.fields (jsTrim s.fields.title) false env.title := by
    rw [runInspect_pending s raw env h2 h3,
      applyInspectResults_fresh_fields _ _ _ _ _ _ _
        (pendingState_inspectRequest s raw),
      applyDedupe_fields_of_not_loaded _ _ _ hnl, hnl]
    rfl
  refine ⟨?_, ?_, ?_, ?_⟩
  · intro hb
    rw [hfields]
    unfold titleRuleFields
    cases env.title with
    | fulfilled t =>
      simp only [Bool.false_eq_true, if_false]
      rw [if_neg]
      intro hcon
      exact hb hcon.2
    | rejected m => rfl
  · intro t ht hne hblank
    rw [hfields, ht]
    unfold titleRuleFields
    simp only [Bool.false_eq_true, if_false]
    rw [if_pos ⟨hne, hblank⟩]
  · intro t ht hempty
    rw [hfields, ht]
    unfold titleRuleFields
    simp only [Bool.false_eq_true, if_false]
    rw [if_neg]
    intro hcon
    exact hcon.1 hempty
  · intro m hm
    rw [hfields, hm]
    rfl

/-- Witness for C8: with a typed title `"My title"`, inspecting `a.com` leaves
the title untouched although the fetch returned one. -/
theorem claim8_title_preservation_witness :
    jsTrim (" My title" : String) ≠ ""
    ∧ (runInspect
        { sampleState with fields := { sampleState.fields with title := " My title" } }
        "a.com" envTitleOnly).fields.title = " My title" := by
  constructor
  · decide
  · exact (claim8_title_preservation
      { sampleState with fields := { sampleState.fields with title := " My title" } }
      "a.com" envTitleOnly (by decide) (by decide) (by decide)).1 (by decide)

/-! ## C10 — inspection without a configured token -/

/-- C10: with no API token configured, the only remote call an inspection
issues is the title fetch (duplicate check and tag suggestions are skipped,
each settling as `fulfilled undefined`): the duplicate state stays unset, the
suggestion state is unset, no error or status message appears, the intent is
untouched, and the title-fetch result is applied under the usual
empty-title rule. -/
theorem claim10_no_token_inspect (s : UiState) (raw : String)
    (env : RemoteOutcomes) (htok : s.tokenConfigured = false)
    (h2 : jsTrim raw ≠ "") (h3 : startsLikeUrl (jsTrim raw) = true)
    (hdup : s.duplicate = none) :
    (startInspect s raw).calls = [RemoteCall.fetchUrlTitle (jsTrim raw)]
    ∧ (runInspect s raw env).duplicate = none
    ∧ (runInspect s raw env).suggestions = none
    ∧ (runInspect s raw env).statusMessage = s.statusMessage
    ∧ (runInspect s raw env).intent = s.intent
    ∧ (jsTrim s.fields.title ≠ "" →
        (runInspect s raw env).fields.title = s.fields.title)
    ∧ (∀ t : Option String, env.title = .fulfilled t →
        jsTrim (t.getD "") ≠ "" → jsTrim s.fields.title = "" →
        (runInspect s raw env).fields.title = jsTrim (t.getD "")) := by
  have hrun : runInspect s raw env
      = applyInspectResults (pendingState s raw) (s.inspectRequest + 1)
          (jsTrim raw) (jsTrim s.fields.title)
          (.fulfilled none) (.fulfilled none) env.title := by
    rw [runInspect_pending s raw env h2 h3]
    unfold effectiveDedupe effectiveTags
    rw [htok]
    rfl
  have hfields : (runInspect s raw env).fields
      = titleRuleFields s.fields (jsTrim s.fields.title) false env.title := by
    rw [hrun,
      applyInspectResults_fresh_fields _ _ _ _ _ _ _
        (pendingState_inspectRequest s raw)]
    rfl
  refine ⟨?_, ?_, ?_, ?_, ?_, ?_, ?_⟩
  · unfold startInspect
    rw [if_neg (by simp [h2, h3])]
    simp [InspectStep.calls, htok]
  · rw [hrun,
      applyInspectResults_fresh_duplicate _ _ _ _ _ _ _
        (pendingState_inspectRequest s raw)]
    exact hdup
  · rw [hrun,
      applyInspectResults_fresh_suggestions _ _ _ _ _ _ _
        (pendingState_inspectRequest s raw)]
  · rw [hrun,
      applyInspectResults_fresh_statusMessage _ _ _ _ _ _ _
        (pendingState_inspectRequest s raw)]
    rfl
  · rw [hrun,
      applyInspectResults_fresh_intent _ _ _ _ _ _ _
        (pendingState_inspectRequest s raw)]
    rfl
  · intro hb
    rw [hfields]
    unfold titleRuleFields
    cases env.title with
    | fulfilled t =>
      simp only [Bool.false_eq_true, if_false]
      rw [if_neg]
      intro hcon
      exact hb hcon.2
    | rejected m => rfl
  · intro t ht hne hblank
    rw [hfields, ht]
    unfold titleRuleFields
    simp only [Bool.false_eq_true, if_false]
    rw [if_pos ⟨hne, hblank⟩]

/-- Witness for C10 at a token-less concrete state. -/
theorem claim10_no_token_inspect_witness :
    (startInspect { sampleState with tokenConfigured := false } "a.com").calls
        = [RemoteCall.fetchUrlTitle "a.com"]
    ∧ (runInspect { sampleState with tokenConfigured := false } "a.com"
        envTitleOnly).duplicate = none
    ∧ (runInspect { sampleState with tokenConfigured := false } "a.com"
        envTitleOnly).suggestions = none
    ∧ (runInspect { sampleState with tokenConfigured := false } "a.com"
        envTitleOnly).statusMessage
        = ({ sampleState with tokenConfigured := false } : UiState).statusMessage := by
  have h := claim10_no_token_inspect { sampleState with tokenConfigured := false }
    "a.com" envTitleOnly rfl (by decide) (by decide) rfl
  exact ⟨by simpa using h.1, h.2.1, h.2.2.1, h.2.2.2.1⟩

/-! ## Helper lemmas on the tag-merging primitives -/

theorem mem_dedupFirstAux (xs : List String) :
    ∀ (seen : List String) (y : String),
      y ∈ dedupFirstAux seen xs ↔ y ∈ xs ∧ y ∉ seen := by
  induction xs with
  | nil => intro seen y; simp [dedupFirstAux]
  | cons x xs ih =>
    intro seen y
    unfold dedupFirstAux
    by_cases hx : x ∈ seen
    · rw [if_pos hx, ih]
      constructor
      · rintro ⟨hy, hns⟩
        exact ⟨List.mem_cons_of_mem _ hy, hns⟩
      · rintro ⟨hy, hns⟩
        rcases List.mem_cons.mp hy with rfl | hy
        · exact absurd hx hns
        · exact ⟨hy, hns⟩
    · rw [if_neg hx]
      constructor
      · intro hy
        rcases List.mem_cons.mp hy with rfl | hy
        · exact ⟨List.mem_cons_self _ _, hx⟩
        · obtain ⟨h1, h2⟩ := (ih _ y).mp hy
          refine ⟨List.mem_cons_of_mem _ h1, ?_⟩
          intro hc
          exact h2 (List.mem_cons_of_mem _ hc)
      · rintro ⟨hy, hns⟩
        rcases List.mem_cons.mp hy with rfl | hy
        · exact List.mem_cons_self _ _
        · by_cases hyx : y = x
          · subst hyx; exact List.mem_cons_self _ _
          · refine List.mem_cons_of_mem _ ((ih _ y).mpr ⟨hy, ?_⟩)
            intro hc
            rcases List.mem_cons.mp hc with h | h
            · exact hyx h
            · exact hns h

theorem dedupFirstAux_nodup (xs : List String) :
    ∀ seen : List String, (dedupFirstAux seen xs).Nodup := by
  induction xs with
  | nil => intro seen; exact List.nodup_nil
  | cons x xs ih =>
    intro seen
    unfold dedupFirstAux
    by_cases hx : x ∈ seen
    · rw [if_pos hx]; exact ih seen
    · rw [if_neg hx]
      refine List.nodup_cons.mpr ⟨?_, ih _⟩
      intro hc
      exact ((mem_dedupFirstAux xs _ x).mp hc).2 (List.mem_cons_self _ _)

theorem dedupFirstAux_eq_self (xs : List String) :
    ∀ seen : List String, xs.Nodup → (∀ x ∈ xs, x ∉ seen) →
      dedupFirstAux seen xs = xs := by
  induction xs with
  | nil => intro seen _ _; rfl
  | cons x xs ih =>
    intro seen hnd hs
    unfold dedupFirstAux
    rw [if_neg (hs x (List.mem_cons_self _ _))]
    congr 1
    refine ih _ (List.nodup_cons.mp hnd).2 ?_
    intro y hy hc
    rcases List.mem_cons.mp hc with rfl | hc
    · exact (List.nodup_cons.mp hnd).1 hy
    · exact hs y (List.mem_cons_of_mem _ hy) hc

theorem dedupFirstAux_append_mem (xs : List String) :
    ∀ (seen : List String) (a : String), (a ∈ seen ∨ a ∈ xs) →
      dedupFirstAux seen (xs ++ [a]) = dedupFirstAux seen xs := by
  induction xs with
  | nil =>
    intro seen a ha
    rcases ha with ha | ha
    · simp [dedupFirstAux, ha]
    · exact absurd ha (List.not_mem_nil a)
  | cons x xs ih =>
    intro seen a ha
    show dedupFirstAux seen (x :: (xs ++ [a])) = _
    unfold dedupFirstAux
    by_cases hx : x ∈ seen
    · rw [if_pos hx, if_pos hx]
      refine ih seen a ?_
      rcases ha with ha | ha
      · exact Or.inl ha
      · rcases List.mem_cons.mp ha with rfl | ha
        · exact Or.inl hx
        · exact Or.inr ha
    · rw [if_neg hx, if_neg hx]
      congr 1
      refine ih _ a ?_
      rcases ha with ha | ha
      · exact Or.inl (List.mem_cons_of_mem _ ha)
      · rcases List.mem_cons.mp ha with rfl | ha
        · exact Or.inl (List.mem_cons_self _ _)
        · exact Or.inr ha

theorem dedupFirstAux_append_not_mem (xs : List String) :
    ∀ (seen : List String) (a : String), a ∉ seen → a ∉ xs →
      dedupFirstAux seen (xs ++ [a]) = dedupFirstAux seen xs ++ [a] := by
  induction xs with
  | nil =>
    intro seen a ha _
    simp [dedupFirstAux, ha]
  | cons x xs ih =>
    intro seen a ha hxs
    show dedupFirstAux seen (x :: (xs ++ [a])) = _
    unfold dedupFirstAux
    by_cases hx : x ∈ seen
    · rw [if_pos hx, if_pos hx]
      exact ih seen a ha (fun hc => hxs (List.mem_cons_of_mem _ hc))
    · rw [if_neg hx, if_neg hx, List.cons_append]
      congr 1
      refine ih _ a ?_ (fun hc => hxs (List.mem_cons_of_mem _ hc))
      intro hc
      rcases List.mem_cons.mp hc with rfl | hc
      · exact hxs (List.mem_cons_self _ _)
      · exact ha hc

theorem fwAux_sublist (xs : List String) :
    ∀ seen : List String, (fwAux seen xs).Sublist xs := by
  induction xs with
  | nil => intro seen; exact List.Sublist.refl []
  | cons x xs ih =>
    intro seen
    unfold fwAux
    by_cases hx : lowerStr x ∈ seen
    · rw [if_pos hx]
      exact (ih seen).cons x
    · rw [if_neg hx]
      exact (ih _).cons₂ x

theorem mem_fwAux_key_not_seen (xs : List String) :
    ∀ (seen : List String) (y : String), y ∈ fwAux seen xs →
      lowerStr y ∉ seen := by
  induction xs with
  | nil => intro seen y hy; exact absurd hy (List.not_mem_nil y)
  | cons x xs ih =>
    intro seen y hy
    unfold fwAux at hy
    by_cases hx : lowerStr x ∈ seen
    · rw [if_pos hx] at hy
      exact ih seen y hy
    · rw [if_neg hx] at hy
      rcases List.mem_cons.mp hy with rfl | hy
      · exact hx
      · intro hc
        exact ih _ y hy (List.mem_cons_of_mem _ hc)

theorem fwAux_keys_nodup (xs : List String) :
    ∀ seen : List String, ((fwAux seen xs).map lowerStr).Nodup := by
  induction xs with
  | nil => intro seen; exact List.nodup_nil
  | cons x xs ih =>
    intro seen
    unfold fwAux
    by_cases hx : lowerStr x ∈ seen
    · rw [if_pos hx]; exact ih seen
    · rw [if_neg hx]
      rw [List.map_cons]
      refine List.nodup_cons.mpr ⟨?_, ih _⟩
      intro hc
      obtain ⟨y, hy, hyk⟩ := List.mem_map.mp hc
      exact mem_fwAux_key_not_seen xs _ y hy (hyk ▸ List.mem_cons_self _ _)

theorem fwAux_keys_covered (xs : List String) :
    ∀ (seen : List String) (k : String), k ∈ xs.map lowerStr →
      k ∈ seen ∨ k ∈ (fwAux seen xs).map lowerStr := by
  induction xs with
  | nil => intro seen k hk; exact absurd hk (by simp)
  | cons x xs ih =>
    intro seen k hk
    unfold fwAux
    rw [List.map_cons] at hk
    by_cases hx : lowerStr x ∈ seen
    · rw [if_pos hx]
      rcases List.mem_cons.mp hk with rfl | hk
      · exact Or.inl hx
      · exact ih seen k hk
    · rw [if_neg hx, List.map_cons]
      rcases List.mem_cons.mp hk with rfl | hk
      · exact Or.inr (List.mem_cons_self _ _)
      · rcases ih (lowerStr x :: seen) k hk with h | h
        · rcases List.mem_cons.mp h with rfl | h
          · exact Or.inr (List.mem_cons_self _ _)
          · exact Or.inl h
        · exact Or.inr (List.mem_cons_of_mem _ h)

theorem fwAux_append_absorb (xs : List String) :
    ∀ (seen : List String) (ys : List String),
      (∀ y ∈ ys, lowerStr y ∈ seen ∨ lowerStr y ∈ xs.map lowerStr) →
      fwAux seen (xs ++ ys) = fwAux seen xs := by
  induction xs with
  | nil =>
    intro seen ys hys
    show fwAux seen ys = fwAux seen []
    induction ys with
    | nil => rfl
    | cons y ys ihy =>
      unfold fwAux
      rcases hys y (List.mem_cons_self _ _) with h | h
      · rw [if_pos h]
        exact ihy (fun z hz => by
          rcases hys z (List.mem_cons_of_mem _ hz) with h' | h'
          · exact Or.inl h'
          · exact Or.inr h')
      · exact absurd h (by simp)
  | cons x xs ih =>
    intro seen ys hys
    show fwAux seen (x :: (xs ++ ys)) = _
    unfold fwAux
    by_cases hx : lowerStr x ∈ seen
    · rw [if_pos hx, if_pos hx]
      refine ih seen ys ?_
      intro y hy
      rcases hys y hy with h | h
      · exact Or.inl h
      · rw [List.map_cons] at h
        rcases List.mem_cons.mp h with heq | h
        · exact Or.inl (heq ▸ hx)
        · exact Or.inr h
    · rw [if_neg hx, if_neg hx]
      congr 1
      refine ih _ ys ?_
      intro y hy
      rcases hys y hy with h | h
      · exact Or.inl (List.mem_cons_of_mem _ h)
      · rw [List.map_cons] at h
        rcases List.mem_cons.mp h with heq | h
        · exact Or.inl (heq ▸ List.mem_cons_self _ _)
        · exact Or.inr h

theorem fwAux_eq_self (xs : List String) :
    ∀ seen : List String, (xs.map lowerStr).Nodup →
      (∀ x ∈ xs, lowerStr x ∉ seen) → fwAux seen xs = xs := by
  induction xs with
  | nil => intro seen _ _; rfl
  | cons x xs ih =>
    intro seen hnd hs
    unfold fwAux
    rw [if_neg (hs x (List.mem_cons_self _ _))]
    congr 1
    rw [List.map_cons] at hnd
    refine ih _ (List.nodup_cons.mp hnd).2 ?_
    intro y hy hc
    rcases List.mem_cons.mp hc with heq | hc
    · exact (List.nodup_cons.mp hnd).1 (heq ▸ List.mem_map_of_mem lowerStr hy)
    · exact hs y (List.mem_cons_of_mem _ hy) hc

theorem fwAux_seen_congr (xs : List String) :
    ∀ seen₁ seen₂ : List String, (∀ k, k ∈ seen₁ ↔ k ∈ seen₂) →
      fwAux seen₁ xs = fwAux seen₂ xs := by
  induction xs with
  | nil => intro _ _ _; rfl
  | cons x xs ih =>
    intro seen₁ seen₂ hiff
    unfold fwAux
    by_cases hx : lowerStr x ∈ seen₁
    · rw [if_pos hx, if_pos ((hiff _).mp hx)]
      exact ih _ _ hiff
    · rw [if_neg hx, if_neg (fun hc => hx ((hiff _).mpr hc))]
      congr 1
      refine ih _ _ ?_
      intro k
      constructor
      · intro hk
        rcases List.mem_cons.mp hk with rfl | hk
        · exact List.mem_cons_self _ _
        · exact List.mem_cons_of_mem _ ((hiff _).mp hk)
      · intro hk
        rcases List.mem_cons.mp hk with rfl | hk
        · exact List.mem_cons_self _ _
        · exact List.mem_cons_of_mem _ ((hiff _).mpr hk)

theorem fwAux_cons_pos {x : String} {seen : List String} (t : List String)
    (h : lowerStr x ∈ seen) : fwAux seen (x :: t) = fwAux seen t := by
  unfold fwAux
  rw [if_pos h]
  cases t <;> rfl

theorem fwAux_cons_neg {x : String} {seen : List String} (t : List String)
    (h : lowerStr x ∉ seen) :
    fwAux seen (x :: t) = x :: fwAux (lowerStr x :: seen) t := by
  unfold fwAux
  rw [if_neg h]
  cases t <;> rfl

theorem fwAux_append_split (xs : List String) :
    ∀ (seen : List String) (ys : List String),
      fwAux seen (xs ++ ys)
        = fwAux seen xs ++ fwAux ((fwAux seen xs).map lowerStr ++ seen) ys := by
  induction xs with
  | nil =>
    intro seen ys
    show fwAux seen ys = [] ++ fwAux ([] ++ seen) ys
    rw [List.nil_append, List.nil_append]
  | cons x xs ih =>
    intro seen ys
    rw [List.cons_append]
    by_cases hx : lowerStr x ∈ seen
    · rw [fwAux_cons_pos _ hx, fwAux_cons_pos _ hx]
      exact ih seen ys
    · rw [fwAux_cons_neg _ hx, fwAux_cons_neg _ hx,
        ih (lowerStr x :: seen) ys, List.cons_append]
      congr 2
      refine fwAux_seen_congr ys _ _ ?_
      intro k
      rw [List.map_cons]
      constructor
      · intro hk
        rcases List.mem_append.mp hk with hk | hk
        · exact List.mem_append.mpr (Or.inl (List.mem_cons_of_mem _ hk))
        · rcases List.mem_cons.mp hk with rfl | hk
          · exact List.mem_append.mpr (Or.inl (List.mem_cons_self _ _))
          · exact List.mem_append.mpr (Or.inr hk)
      · intro hk
        rcases List.mem_append.mp hk with hk | hk
        · rcases List.mem_cons.mp hk with rfl | hk
          · exact List.mem_append.mpr (Or.inr (List.mem_cons_self _ _))
          · exact List.mem_append.mpr (Or.inl hk)
        · exact List.mem_append.mpr (Or.inr (List.mem_cons_of_mem _ hk))

theorem mem_dedupFirst (xs : List String) (y : String) :
    y ∈ dedupFirst xs ↔ y ∈ xs := by
  unfold dedupFirst
  rw [mem_dedupFirstAux]
  simp

theorem dedupFirst_nodup (xs : List String) : (dedupFirst xs).Nodup :=
  dedupFirstAux_nodup xs []

theorem dedupFirst_eq_self {xs : List String} (h : xs.Nodup) :
    dedupFirst xs = xs :=
  dedupFirstAux_eq_self xs [] h (by simp)

theorem lookupLastForm_spec (items : List String) (k : String)
    (h : k ∈ items.map lowerStr) :
    ∃ v, lookupLastForm items k = some v ∧ lowerStr v = k := by
  obtain ⟨x, hx, hxk⟩ := List.mem_map.mp h
  have hsome : (items.reverse.find? (fun item => lowerStr item == k)).isSome := by
    rw [List.find?_isSome]
    exact ⟨x, List.mem_reverse.mpr hx, by simp [hxk]⟩
  obtain ⟨v, hv⟩ := Option.isSome_iff_exists.mp hsome
  refine ⟨v, hv, ?_⟩
  simpa using List.find?_some hv

theorem renderKey_eq {items : List String} {k v : String}
    (hfind : lookupLastForm items k = some v) (hk : lowerStr v = k) :
    renderKey items k = v := by
  unfold renderKey
  rw [hfind]
  show (if v = "" then k else v) = v
  by_cases hv : v = ""
  · subst hv
    rw [if_pos rfl, ← hk]
    rfl
  · rw [if_neg hv]

theorem renderKey_lower {items : List String} {k : String}
    (h : k ∈ items.map lowerStr) : lowerStr (renderKey items k) = k := by
  obtain ⟨v, hfind, hv⟩ := lookupLastForm_spec items k h
  rw [renderKey_eq hfind hv, hv]

theorem lookupLastForm_append_self (l : List String) (t : String) :
    lookupLastForm (l ++ [t]) (lowerStr t) = some t := by
  unfold lookupLastForm
  rw [List.reverse_append]
  show List.find? _ (t :: l.reverse) = some t
  rw [List.find?_cons_of_pos _ (by simp)]

theorem find?_eq_some_of_unique {p : String → Bool} {x : String}
    (hpx : p x = true) :
    ∀ m : List String, x ∈ m → (∀ y ∈ m, p y = true → y = x) →
      m.find? p = some x := by
  intro m
  induction m with
  | nil => intro hx _; exact absurd hx (List.not_mem_nil x)
  | cons a m ih =>
    intro hx huniq
    by_cases hpa : p a = true
    · rw [List.find?_cons_of_pos _ hpa]
      exact congrArg some (huniq a (List.mem_cons_self _ _) hpa)
    · rw [List.find?_cons_of_neg _ hpa]
      rcases List.mem_cons.mp hx with rfl | hx'
      · exact absurd hpx hpa
      · exact ih hx' (fun y hy hpy => huniq y (List.mem_cons_of_mem _ hy) hpy)

theorem renderKey_of_mem_nodup {l : List String} {t x : String}
    (hl : (l.map lowerStr).Nodup) (hx : x ∈ l) :
    renderKey (l ++ [t]) (lowerStr x)
      = if lowerStr x = lowerStr t then t else x := by
  by_cases heq : lowerStr x = lowerStr t
  · rw [if_pos heq, heq]
    exact renderKey_eq (lookupLastForm_append_self l t) rfl
  · rw [if_neg heq]
    have hfind : lookupLastForm (l ++ [t]) (lowerStr x) = some x := by
      unfold lookupLastForm
      rw [List.reverse_append]
      show List.find? _ (t :: l.reverse) = some x
      rw [List.find?_cons_of_neg _
        (by simp only [beq_iff_eq]; exact fun h => heq h.symm)]
      refine find?_eq_some_of_unique (by simp) l.reverse
        (List.mem_reverse.mpr hx) ?_
      intro y hy hpy
      exact List.inj_on_of_nodup_map hl (List.mem_reverse.mp hy) hx
        (by simpa using hpy)
    exact renderKey_eq hfind rfl

/-! ## Characterisations of the tag-merging operations -/

theorem appendTagList_keys (l : List String) (t : String) :
    (appendTagList l t).map lowerStr = dedupFirst ((l ++ [t]).map lowerStr) := by
  unfold appendTagList
  rw [List.map_map]
  have hmap : ∀ k ∈ dedupFirst (l.map lowerStr ++ [lowerStr t]),
      (lowerStr ∘ renderKey (l ++ [t])) k = id k := by
    intro k hk
    have hk' : k ∈ (l ++ [t]).map lowerStr := by
      rw [List.map_append]
      exact (mem_dedupFirst _ k).mp hk
    exact renderKey_lower hk'
  rw [List.map_congr_left hmap, List.map_id, List.map_append]
  rfl

theorem appendTagList_of_key_mem {l : List String} {t : String}
    (hl : (l.map lowerStr).Nodup) (hmem : lowerStr t ∈ l.map lowerStr) :
    appendTagList l t
      = l.map (fun x => if lowerStr x = lowerStr t then t else x) := by
  unfold appendTagList
  have hmerged : dedupFirst (l.map lowerStr ++ [lowerStr t]) = l.map lowerStr := by
    unfold dedupFirst
    rw [dedupFirstAux_append_mem _ [] _ (Or.inr hmem)]
    exact dedupFirstAux_eq_self _ [] hl (by simp)
  rw [hmerged, List.map_map]
  refine List.map_congr_left ?_
  intro x hx
  exact renderKey_of_mem_nodup hl hx

theorem appendTagList_of_key_not_mem {l : List String} {t : String}
    (hl : (l.map lowerStr).Nodup) (hmem : lowerStr t ∉ l.map lowerStr) :
    appendTagList l t = l ++ [t] := by
  unfold appendTagList
  have hmerged : dedupFirst (l.map lowerStr ++ [lowerStr t])
      = l.map lowerStr ++ [lowerStr t] := by
    unfold dedupFirst
    rw [dedupFirstAux_append_not_mem _ [] _ (by simp) hmem,
      dedupFirstAux_eq_self _ [] hl (by simp)]
  rw [hmerged, List.map_append, List.map_map]
  congr 1
  · have hpt : ∀ x ∈ l, (renderKey (l ++ [t]) ∘ lowerStr) x = id x := by
      intro x hx
      have hne : lowerStr x ≠ lowerStr t := by
        intro hc
        exact hmem (hc ▸ List.mem_map_of_mem lowerStr hx)
      show renderKey (l ++ [t]) (lowerStr x) = x
      rw [renderKey_of_mem_nodup hl hx, if_neg hne]
    rw [List.map_congr_left hpt, List.map_id]
  · show [renderKey (l ++ [t]) (lowerStr t)] = [t]
    rw [renderKey_eq (lookupLastForm_append_self l t) rfl]

theorem appendTagList_of_mem {l : List String} {t : String}
    (hl : (l.map lowerStr).Nodup) (ht : t ∈ l) : appendTagList l t = l := by
  rw [appendTagList_of_key_mem hl (List.mem_map_of_mem lowerStr ht)]
  have hpt : ∀ x ∈ l, (if lowerStr x = lowerStr t then t else x) = id x := by
    intro x hx
    by_cases h : lowerStr x = lowerStr t
    · rw [if_pos h]
      exact (List.inj_on_of_nodup_map hl hx ht h).symm
    · rw [if_neg h]; rfl
  rw [List.map_congr_left hpt, List.map_id]

theorem self_mem_appendTagList (l : List String) (t : String) :
    t ∈ appendTagList l t := by
  unfold appendTagList
  refine List.mem_map.mpr ⟨lowerStr t, ?_, ?_⟩
  · exact (mem_dedupFirst _ _).mpr
      (List.mem_append.mpr (Or.inr (List.mem_cons_self _ _)))
  · exact renderKey_eq (lookupLastForm_append_self l t) rfl

theorem appendTagList_keys_nodup (l : List String) (t : String) :
    ((appendTagList l t).map lowerStr).Nodup := by
  rw [appendTagList_keys]
  exact dedupFirst_nodup _

theorem appendTagList_idem (l : List String) (t : String) :
    appendTagList (appendTagList l t) t = appendTagList l t :=
  appendTagList_of_mem (appendTagList_keys_nodup l t) (self_mem_appendTagList l t)

theorem addAllList_keys_nodup (l r p : List String) :
    ((addAllList l r p).map lowerStr).Nodup :=
  fwAux_keys_nodup _ []

theorem addAllList_sublist (l r p : List String) :
    (addAllList l r p).Sublist (l ++ r ++ p) :=
  fwAux_sublist _ []

theorem addAllList_of_nodup {l : List String} (r p : List String)
    (hl : (l.map lowerStr).Nodup) :
    addAllList l r p = l ++ fwAux (l.map lowerStr) (r ++ p) := by
  unfold addAllList
  rw [List.append_assoc, fwAux_append_split,
    fwAux_eq_self l [] hl (by simp)]
  congr 1
  refine fwAux_seen_congr _ _ _ ?_
  intro k
  simp

theorem addAllList_idem (l r p : List String) :
    addAllList (addAllList l r p) r p = addAllList l r p := by
  have hnd : ((addAllList l r p).map lowerStr).Nodup := addAllList_keys_nodup l r p
  have hcov : ∀ y ∈ r ++ p, lowerStr y ∈ (addAllList l r p).map lowerStr := by
    intro y hy
    have hk : lowerStr y ∈ (l ++ (r ++ p)).map lowerStr :=
      List.mem_map_of_mem lowerStr (List.mem_append.mpr (Or.inr hy))
    rcases fwAux_keys_covered (l ++ (r ++ p)) [] (lowerStr y) hk with h | h
    · exact absurd h (by simp)
    · rw [← List.append_assoc] at h
      exact h
  show fwAux [] ((addAllList l r p ++ r) ++ p) = addAllList l r p
  rw [List.append_assoc,
    fwAux_append_absorb _ [] (r ++ p) (fun y hy => Or.inr (hcov y hy))]
  exact fwAux_eq_self _ [] hnd (by simp)

/-! ## C9 — tag merging -/

/-- C9 counterexample: appending `"RUST"` to the tag list `["rust"]` — a tag
already present case-insensitively — does NOT leave the list unchanged: the
`sourceMap` of `appendTag` is filled with a plain `set`, so the LAST occurrence
(the appended tag) wins and the entry is rewritten to `"RUST"`. -/
theorem claim9_append_case_rewrite_cex :
    appendTagList ["rust"] "RUST" = ["RUST"]
    ∧ appendTagList ["rust"] "RUST" ≠ ["rust"] := by
  constructor <;> decide

/-- C9 (amended): both merge operations produce a case-insensitively unique
tag list (no two entries equal ignoring case), keeping keys in
first-occurrence order.  `addAllSuggested` keeps the first occurrence's
original form: entries come from the input in order (a sublist), and on an
already-deduplicated tag list it appends only new-keyed suggestions,
preserving every existing entry.  `appendTag`, however, renders each key with
the LAST occurrence of that key, so appending a tag whose key is already
present rewrites that entry (in place) to the appended spelling; the list is
unchanged when the appended tag is already present in identical form.
Appending a fresh-keyed tag appends it at the end.  Both operations are
idempotent. -/
theorem claim9_tag_merge :
    (∀ (l : List String) (t : String),
        ((appendTagList l t).map lowerStr).Nodup)
    ∧ (∀ l r p : List String, ((addAllList l r p).map lowerStr).Nodup)
    ∧ (∀ (l : List String) (t : String),
        (appendTagList l t).map lowerStr
          = dedupFirst ((l ++ [t]).map lowerStr))
    ∧ (∀ l r p : List String, (addAllList l r p).Sublist (l ++ r ++ p))
    ∧ (∀ l r p : List String, (l.map lowerStr).Nodup →
        addAllList l r p = l ++ fwAux (l.map lowerStr) (r ++ p))
    ∧ (∀ (l : List String) (t : String), (l.map lowerStr).Nodup →
        lowerStr t ∈ l.map lowerStr →
        appendTagList l t
          = l.map (fun x => if lowerStr x = lowerStr t then t else x))
    ∧ (∀ (l : List String) (t : String), (l.map lowerStr).Nodup →
        lowerStr t ∉ l.map lowerStr → appendTagList l t = l ++ [t])
    ∧ (∀ (l : List String) (t : String), (l.map lowerStr).Nodup → t ∈ l →
        appendTagList l t = l)
    ∧ (∀ (l : List String) (t : String),
        appendTagList (appendTagList l t) t = appendTagList l t)
    ∧ (∀ l r p : List String,
        addAllList (addAllList l r p) r p = addAllList l r p) :=
  ⟨appendTagList_keys_nodup, addAllList_keys_nodup, appendTagList_keys,
   addAllList_sublist, fun _ r p hl => addAllList_of_nodup r p hl,
   fun _ _ hl hm => appendTagList_of_key_mem hl hm,
   fun _ _ hl hm => appendTagList_of_key_not_mem hl hm,
   fun _ _ hl ht => appendTagList_of_mem hl ht,
   appendTagList_idem, addAllList_idem⟩

/-- Witness for C9 on concrete lists: identical-form append is a no-op, and a
fresh tag is appended at the end. -/
theorem claim9_tag_merge_witness :
    appendTagList ["tech", "news"] "news" = ["tech", "news"]
    ∧ appendTagList ["tech", "news"] "rust" = ["tech", "news", "rust"] :=
  ⟨claim9_tag_merge.2.2.2.2.2.2.2.1 ["tech", "news"] "news" (by decide)
      (by decide),
   claim9_tag_merge.2.2.2.2.2.2.1 ["tech", "news"] "rust" (by decide)
      (by decide)⟩

end Ommapin
